import Mathlib

set_option maxHeartbeats 1000000

/-! Shallow embedding of the cdlreq cross-reference validation and
test-coverage analysis core (cdlreq/core/models.py, cdlreq/core/validator.py,
cdlreq/core/test_coverage.py), together with proofs about it.

Modelling conventions: Python strings are `String`, with the text processing
done structurally over `List Char` so that everything evaluates inside the
kernel; Python dicts are association lists with insertion-order and
last-write-wins semantics; Python sets that are only ever tested for
membership or iterated are duplicate-free lists; file-system reads are an
explicit environment `String → Option String`; the one external library call
(Python's `ast.parse`) is an explicit oracle producing a minimal syntax-tree
type. Fallible code returns `Except`. -/

/-! ### Generic helpers: Python str / dict / set primitives -/

/-- Whitespace characters stripped by Python's `str.strip()`. -/
def isPySpace (c : Char) : Bool :=
  c = ' ' || c = '\t' || c = '\n' || c = '\r' || c = '\x0b' || c = '\x0c'

/-- `str.strip()` on a character list. -/
def trimChars (l : List Char) : List Char :=
  ((l.dropWhile isPySpace).reverse.dropWhile isPySpace).reverse

/-- `str.strip()`. -/
def strTrim (s : String) : String := String.mk (trimChars s.data)

/-- `str.split("\n")` on a character list (never returns an empty list). -/
def splitLines : List Char → List (List Char)
  | [] => [[]]
  | c :: rest =>
    let r := splitLines rest
    if c = '\n' then [] :: r
    else (c :: r.headD []) :: r.tail

/-- Substring test: does `pat` occur inside `l`?  (Python's `pat in l`.) -/
def containsSub (l pat : List Char) : Bool :=
  if pat.isPrefixOf l then true
  else
    match l with
    | [] => false
    | _ :: t => containsSub t pat

/-- Python's `pat in s` on strings. -/
def strContains (s pat : String) : Bool := containsSub s.data pat.data

/-- Python's `s.startswith(p)`. -/
def strStartsWith (s p : String) : Bool := p.data.isPrefixOf s.data

/-- Python's `s.endswith(p)`. -/
def strEndsWith (s p : String) : Bool := p.data.reverse.isPrefixOf s.data.reverse

/-- Python's `s.lower()` (ASCII case folding suffices here). -/
def strToLower (s : String) : String := String.mk (s.data.map Char.toLower)

/-- The part of `l` that precedes the first occurrence of `pat`
(`l.split(pat)[0]`); all of `l` when `pat` does not occur. -/
def takeBeforeSub : List Char → List Char → List Char
  | l, pat =>
    if pat.isPrefixOf l then []
    else
      match l with
      | [] => []
      | c :: t => c :: takeBeforeSub t pat

/-- Python's `list.index(x)` (meaningful only when `x` is present). -/
def indexOfStr (x : String) : List String → Nat
  | [] => 0
  | y :: ys => if y = x then 0 else indexOfStr x ys + 1

/-- `set.add`: a Python set accumulated by insertion, as a duplicate-free
list. -/
def addSet (xs : List String) (x : String) : List String :=
  if x ∈ xs then xs else xs ++ [x]

/-- `set(iterable)` keeping first occurrences. -/
def dedupFirst (xs : List String) : List String := xs.foldl addSet []

/-- Python dict lookup `d[k]` / `d.get(k)` on an association list. -/
def dictGet? {α : Type} : List (String × α) → String → Option α
  | [], _ => none
  | (k, v) :: rest, k0 => if k = k0 then some v else dictGet? rest k0

/-- Python dict assignment `d[k] = v`: overwrite in place if the key exists,
append otherwise. -/
def insertDict {α : Type} (d : List (String × α)) (k : String) (v : α) :
    List (String × α) :=
  if (dictGet? d k).isSome then
    d.map (fun p => if p.1 = k then (k, v) else p)
  else d ++ [(k, v)]

/-- Python dict comprehension `{key(x): x for x in xs}`. -/
def buildDict {α : Type} (key : α → String) (xs : List α) : List (String × α) :=
  xs.foldl (fun d x => insertDict d (key x) x) []

/-! ### Entity model (cdlreq/core/models.py) -/

/-- `models.Requirement` (the construction-time `REQ-` / category checks are
not involved in any property below and are omitted). -/
structure Requirement where
  id : String
  title : String
  description : String
  type : String
  acceptance_criteria : List String
  tags : List String
  source : Option String
  rationale : Option String
  deriving DecidableEq

/-- `models.Specification`. -/
structure Specification where
  id : String
  title : String
  description : String
  related_requirements : List String
  implementation_unit : String
  unit_test : String
  test_criteria : List String
  design_notes : Option String
  dependencies : List String
  deriving DecidableEq

/-- `validator.ValidationResult`. -/
structure ValidationResult where
  is_valid : Bool
  errors : List String
  deriving DecidableEq

/-! ### CrossReferenceValidator (cdlreq/core/validator.py) -/

/-- `validator.CrossReferenceValidator` after `__init__`: the two
identifier-keyed indices. -/
structure CrossReferenceValidator where
  requirements : List (String × Requirement)
  specifications : List (String × Specification)
  deriving DecidableEq

/-- `CrossReferenceValidator.__init__`. -/
def CrossReferenceValidator.init (reqs : List Requirement)
    (specs : List Specification) : CrossReferenceValidator :=
  ⟨buildDict (fun r => r.id) reqs, buildDict (fun s => s.id) specs⟩

/-- The recursive body of `_find_circular_dependencies.dfs`.  The Python
`rec_stack` set always equals the set of nodes of `path` (each node is pushed
exactly when it is appended to the path of the recursive calls and popped on
return), so the stack is represented by `path` alone.  The state is
`(visited, cycles)`.  Recursion is by explicit fuel; adequacy of the fuel
chosen below is proved in `dfs_fuel_stable`. -/
def CrossReferenceValidator.dfs (specs : List (String × Specification)) :
    Nat → String → List String → List String × List (List String) →
    List String × List (List String)
  | fuel, spec_id, path, st =>
    if hfz : fuel = 0 then st
    else
      if spec_id ∈ path then
        (st.1, st.2 ++ [path.drop (indexOfStr spec_id path) ++ [spec_id]])
      else if spec_id ∈ st.1 then st
      else
        let visited := st.1 ++ [spec_id]
        match dictGet? specs spec_id with
        | some spec =>
            spec.dependencies.foldl
              (fun acc dep_id =>
                CrossReferenceValidator.dfs specs (fuel - 1) dep_id
                  (path ++ [spec_id]) acc)
              (visited, st.2)
        | none => (visited, st.2)
  termination_by fuel _ _ _ => fuel
  decreasing_by simp_wf; omega

/-- All identifiers the cycle walk can ever visit: the keys of the
specification index together with every dependency identifier. -/
def specUniverse (specs : List (String × Specification)) : List String :=
  specs.map Prod.fst ++ (specs.map (fun p => p.2.dependencies)).flatten

/-- `_find_circular_dependencies`, generalized over the fuel. -/
def CrossReferenceValidator.findCircularFuel (v : CrossReferenceValidator)
    (fuel : Nat) : List (List String) :=
  ((v.specifications.map Prod.fst).foldl
    (fun st spec_id =>
      if spec_id ∈ st.1 then st
      else CrossReferenceValidator.dfs v.specifications fuel spec_id [] st)
    ([], [])).2

/-- Fuel that always suffices for the cycle walk (one more than the number of
identifier occurrences in the dependency graph). -/
def CrossReferenceValidator.baseFuel (v : CrossReferenceValidator) : Nat :=
  (specUniverse v.specifications).length + 1

/-- `CrossReferenceValidator._find_circular_dependencies`. -/
def CrossReferenceValidator._find_circular_dependencies
    (v : CrossReferenceValidator) : List (List String) :=
  v.findCircularFuel v.baseFuel

/-- `CrossReferenceValidator.validate_cross_references`. -/
def CrossReferenceValidator.validate_cross_references
    (v : CrossReferenceValidator) : ValidationResult :=
  let reqErrors :=
    ((v.specifications.map Prod.snd).map (fun spec =>
      spec.related_requirements.filterMap (fun req_id =>
        if (dictGet? v.requirements req_id).isSome then none
        else some ("Specification " ++ spec.id ++
          " references non-existent requirement " ++ req_id)))).flatten
  let depErrors :=
    ((v.specifications.map Prod.snd).map (fun spec =>
      spec.dependencies.filterMap (fun dep_id =>
        if (dictGet? v.specifications dep_id).isSome then none
        else some ("Specification " ++ spec.id ++
          " depends on non-existent specification " ++ dep_id)))).flatten
  let cycleErrors :=
    (v._find_circular_dependencies).map (fun cycle =>
      "Circular dependency detected: " ++ String.intercalate " -> " cycle)
  let errors := reqErrors ++ depErrors ++ cycleErrors
  ⟨errors.isEmpty, errors⟩

/-- Modelled from the spec: `get_missing_requirement_links` is called by the
CLI layer and by the repository's tests, but its definition is not among the
provided sources.  Per the spec it "returns the list of (specification
identifier, missing requirement identifier) pairs — the same
dangling-requirement condition" as the first scan of
`validate_cross_references`. -/
def CrossReferenceValidator.get_missing_requirement_links
    (v : CrossReferenceValidator) : List (String × String) :=
  ((v.specifications.map Prod.snd).map (fun spec =>
    spec.related_requirements.filterMap (fun req_id =>
      if (dictGet? v.requirements req_id).isSome then none
      else some (spec.id, req_id)))).flatten

/-! ### Test coverage analysis (cdlreq/core/test_coverage.py) -/

/-- The file system the analyzer reads from (`Path.exists` + `open().read()`):
`none` means the path does not exist (or cannot be read). -/
def FileSystem : Type := String → Option String

/-- Minimal fragment of Python's abstract syntax tree: all the analyzer
inspects is which nodes are `ast.FunctionDef` and what their names are. -/
inductive PyNode where
  | functionDef (name : String) (body : List PyNode)
  | other (children : List PyNode)

/-- The external `ast.parse` oracle: `none` models a `SyntaxError`. -/
def PyParseFn : Type := String → Option PyNode

mutual

/-- `ast.walk`: the node itself and, recursively, all of its descendants
(the analyzer only uses the resulting collection as a set, so the exact
breadth-first order of `ast.walk` is immaterial). -/
def pyWalk : PyNode → List PyNode
  | PyNode.functionDef name body => PyNode.functionDef name body :: pyWalkList body
  | PyNode.other children => PyNode.other children :: pyWalkList children

/-- `ast.walk` over a list of sibling nodes. -/
def pyWalkList : List PyNode → List PyNode
  | [] => []
  | n :: rest => pyWalk n ++ pyWalkList rest

end

/-- `test_coverage.TestCoverageReport` (constructed with all four fields by
`analyze_test_list`). -/
structure TestCoverageReport where
  tested_units : List String
  untested_units : List String
  tested_functions : List (String × List String)
  untested_functions : List (String × List String)
  deriving DecidableEq

/-- `TestCoverageReport.get_coverage_percentage`; the Python float arithmetic
is modelled exactly over `ℚ`. -/
def TestCoverageReport.get_coverage_percentage (r : TestCoverageReport) : ℚ :=
  let total_units := r.tested_units.length + r.untested_units.length
  if total_units = 0 then 100
  else ((r.tested_units.length : ℚ) / (total_units : ℚ)) * 100

/-- `test_coverage.TestCoverageAnalyzer` after `__init__`. -/
structure TestCoverageAnalyzer where
  specifications : List Specification
  unit_test_paths : List String
  deriving DecidableEq

/-- `TestCoverageAnalyzer.__init__`:
`unit_test_paths = set(spec.unit_test for spec in specifications)`. -/
def TestCoverageAnalyzer.init (specs : List Specification) : TestCoverageAnalyzer :=
  ⟨specs, dedupFirst (specs.map (fun s => s.unit_test))⟩

/-- `TestCoverageAnalyzer._parse_test_list`. -/
def TestCoverageAnalyzer._parse_test_list (test_list_content : String) :
    List String :=
  let lines := splitLines (trimChars test_list_content.data)
  lines.foldl
    (fun executed_tests ln =>
      let line := String.mk (trimChars ln)
      if line = "" || strStartsWith line "#" then executed_tests
      else if strStartsWith line "tests/" || strStartsWith line "test" then
        addSet executed_tests line
      else if strContains line "::" then
        addSet executed_tests (String.mk (takeBeforeSub line.data "::".data))
      else if strEndsWith line ".py" then addSet executed_tests line
      else if strContains (strToLower line) "test" then addSet executed_tests line
      else executed_tests)
    []

/-- `TestCoverageAnalyzer._extract_test_functions_regex`: the fallback
line-pattern `^\s*def\s+(test_\w+)\s*\(` applied per line (the pattern is
anchored at line starts by `re.MULTILINE`). -/
def matchTestDefLine (l : List Char) : Option String :=
  let l1 := l.dropWhile (fun c => isPySpace c && c ≠ '\n')
  if ['d', 'e', 'f'].isPrefixOf l1 then
    let l2 := l1.drop 3
    match l2 with
    | [] => none
    | c :: _ =>
      if isPySpace c then
        let l3 := l2.dropWhile (fun c => isPySpace c && c ≠ '\n')
        if ['t', 'e', 's', 't', '_'].isPrefixOf l3 then
          let l4 := l3.drop 5
          let w := l4.takeWhile (fun c => c.isAlphanum || c = '_')
          let rest := l4.dropWhile (fun c => c.isAlphanum || c = '_')
          if w = [] then none
          else
            let rest2 := rest.dropWhile (fun c => isPySpace c && c ≠ '\n')
            match rest2 with
            | '(' :: _ => some (String.mk (['t', 'e', 's', 't', '_'] ++ w))
            | _ => none
        else none
      else none
  else none

/-- `TestCoverageAnalyzer._extract_test_functions_regex` (collected into a
set). -/
def TestCoverageAnalyzer._extract_test_functions_regex (content : String) :
    List String :=
  dedupFirst ((splitLines content.data).filterMap matchTestDefLine)

/-- `TestCoverageAnalyzer._get_test_functions`: empty set for a missing file;
otherwise the `test_`-prefixed `ast.FunctionDef` names of the parsed tree,
falling back to the line pattern when parsing fails. -/
def TestCoverageAnalyzer._get_test_functions (fs : FileSystem)
    (pyParse : PyParseFn) (test_file_path : String) : List String :=
  match fs test_file_path with
  | none => []
  | some content =>
    match pyParse content with
    | some tree =>
        dedupFirst ((pyWalk tree).filterMap (fun n =>
          match n with
          | PyNode.functionDef name _ =>
              if strStartsWith name "test_" then some name else none
          | PyNode.other _ => none))
    | none => TestCoverageAnalyzer._extract_test_functions_regex content

/-- `TestCoverageAnalyzer._is_function_covered`. -/
def TestCoverageAnalyzer._is_function_covered (test_file_path function_name : String)
    (executed_tests : List String) : Bool :=
  let function_reference := test_file_path ++ "::" ++ function_name
  executed_tests.any (fun executed_test =>
    function_reference == executed_test ||
    strContains executed_test function_reference ||
    (strContains executed_test test_file_path &&
      strContains executed_test function_name))

/-- The mutable accumulators of the loop inside `analyze_test_list`. -/
structure AnalyzeState where
  tested : List String
  untested : List String
  tested_functions : List (String × List String)
  untested_functions : List (String × List String)
  deriving DecidableEq

/-- One iteration of the `for unit_test_path in self.unit_test_paths` loop of
`analyze_test_list`. -/
def TestCoverageAnalyzer.processPath (fs : FileSystem) (pyParse : PyParseFn)
    (executed_tests : List String) (st : AnalyzeState) (unit_test_path : String) :
    AnalyzeState :=
  let test_functions :=
    TestCoverageAnalyzer._get_test_functions fs pyParse unit_test_path
  if test_functions ≠ [] then
    let covered_functions := test_functions.filter (fun f =>
      TestCoverageAnalyzer._is_function_covered unit_test_path f executed_tests)
    let missing_functions := test_functions.filter (fun f =>
      !(TestCoverageAnalyzer._is_function_covered unit_test_path f executed_tests))
    if covered_functions ≠ [] then
      { st with
        tested := addSet st.tested unit_test_path
        tested_functions := insertDict st.tested_functions unit_test_path covered_functions
        untested_functions :=
          if missing_functions ≠ [] then
            insertDict st.untested_functions unit_test_path missing_functions
          else st.untested_functions }
    else
      { st with
        untested := addSet st.untested unit_test_path
        untested_functions :=
          insertDict st.untested_functions unit_test_path missing_functions }
  else
    { st with untested := addSet st.untested unit_test_path }

/-- `TestCoverageAnalyzer.analyze_test_list`; the `FileNotFoundError` raised
for a missing log file is the `Except.error` case. -/
def TestCoverageAnalyzer.analyze_test_list (a : TestCoverageAnalyzer)
    (fs : FileSystem) (pyParse : PyParseFn) (test_list_file : String) :
    Except String TestCoverageReport :=
  match fs test_list_file with
  | none => Except.error ("Test list file not found: " ++ test_list_file)
  | some test_list_content =>
    let executed_tests := TestCoverageAnalyzer._parse_test_list test_list_content
    let final := a.unit_test_paths.foldl
      (TestCoverageAnalyzer.processPath fs pyParse executed_tests)
      ⟨[], [], [], []⟩
    Except.ok ⟨final.tested, final.untested, final.tested_functions,
      final.untested_functions⟩

/-- Whether the loop of `analyze_test_list` classifies `unit_test_path` as
tested: it has at least one test function and at least one of them is
covered. -/
def TestCoverageAnalyzer.pathTested (fs : FileSystem) (pyParse : PyParseFn)
    (executed_tests : List String) (unit_test_path : String) : Bool :=
  let fns := TestCoverageAnalyzer._get_test_functions fs pyParse unit_test_path
  !fns.isEmpty &&
    !(fns.filter (fun f =>
        TestCoverageAnalyzer._is_function_covered unit_test_path f executed_tests)).isEmpty

/-! ### Concrete fixtures used by witnesses and counterexamples -/

/-- Fixture: a specification with the given identifier, related requirements,
unit-test path and dependencies. -/
def mkSpec (id : String) (related : List String) (unit_test : String)
    (deps : List String) : Specification :=
  ⟨id, "", "", related, "", unit_test, [], none, deps⟩

/-- Fixture: a requirement with the given identifier. -/
def mkReq (id : String) : Requirement :=
  ⟨id, "", "", "functional", [], [], none, none⟩

/-- Fixture: source text of a unit-test file defining `test_a` and `test_b`. -/
def exFileContent : String :=
  "def test_a():\n    pass\n\ndef test_b():\n    pass\n"

/-- Fixture: the syntax tree `ast.parse` yields for `exFileContent`. -/
def exTree : PyNode :=
  PyNode.other [PyNode.functionDef "test_a" [PyNode.other []],
    PyNode.functionDef "test_b" [PyNode.other []]]

/-- Fixture: a parse oracle that recognizes exactly `exFileContent`. -/
def exPyParse : PyParseFn :=
  fun c => if c = exFileContent then some exTree else none

/-- Fixture: file system with a conforming test file (path starting with
`tests/`) and a log naming `test_a` in pytest format. -/
def exFsGood : FileSystem := fun p =>
  if p = "tests/test_example.py" then some exFileContent
  else if p = "log.txt" then some "tests/test_example.py::test_a PASSED"
  else none

/-- Fixture: same log shape, but the declared test file is `foo.py`, whose
name does not start with `test`. -/
def exFsBad : FileSystem := fun p =>
  if p = "foo.py" then some exFileContent
  else if p = "log.txt" then some "foo.py::test_a PASSED"
  else none

/-- Fixture: a file system holding only a log file. -/
def exFsLogOnly : FileSystem := fun p =>
  if p = "log.txt" then some "tests/test_missing.py::test_x PASSED" else none

/-- Fixture: an empty file system. -/
def exFsEmpty : FileSystem := fun _ => none

/-! ### Helper lemmas -/

theorem mem_addSet {l : List String} {x y : String} :
    x ∈ addSet l y ↔ x ∈ l ∨ x = y := by
  unfold addSet
  split
  · next h =>
    constructor
    · exact fun hx => Or.inl hx
    · rintro (hx | rfl)
      · exact hx
      · exact h
  · simp

theorem nodup_addSet {l : List String} {y : String} (h : l.Nodup) :
    (addSet l y).Nodup := by
  unfold addSet
  split
  · exact h
  · next hy => simp [List.nodup_append, h, hy]

theorem nodup_dedupFirst (xs : List String) : (dedupFirst xs).Nodup := by
  unfold dedupFirst
  suffices h : ∀ acc : List String, acc.Nodup → (xs.foldl addSet acc).Nodup from
    h [] (by simp)
  induction xs with
  | nil => intro acc h; simpa using h
  | cons x xs ih => intro acc h; exact ih _ (nodup_addSet h)

theorem mem_dedupFirst {xs : List String} {x : String} :
    x ∈ dedupFirst xs ↔ x ∈ xs := by
  unfold dedupFirst
  suffices h : ∀ acc, x ∈ xs.foldl addSet acc ↔ x ∈ acc ∨ x ∈ xs by
    simpa using h []
  induction xs with
  | nil => simp
  | cons y ys ih =>
    intro acc
    rw [List.foldl_cons, ih, mem_addSet, List.mem_cons]
    tauto

theorem dictGet?_mem {α : Type} {d : List (String × α)} {k : String} {v : α}
    (h : dictGet? d k = some v) : (k, v) ∈ d := by
  induction d with
  | nil => simp [dictGet?] at h
  | cons p rest ih =>
    rw [show p = (p.1, p.2) from rfl, dictGet?] at h
    split at h
    · next heq =>
      cases h
      simp [← heq]
    · exact List.mem_cons_of_mem _ (ih h)

theorem dictGet?_eq_none_iff {α : Type} {d : List (String × α)} {k : String} :
    dictGet? d k = none ↔ k ∉ d.map Prod.fst := by
  induction d with
  | nil => simp [dictGet?]
  | cons p rest ih =>
    rw [show p = (p.1, p.2) from rfl, dictGet?]
    by_cases hk : p.1 = k
    · simp [hk]
    · simp [hk, ih, Ne.symm hk]

theorem keys_insertDict {α : Type} (d : List (String × α)) (k : String) (v : α) :
    (insertDict d k v).map Prod.fst =
      if (dictGet? d k).isSome then d.map Prod.fst else d.map Prod.fst ++ [k] := by
  unfold insertDict
  split
  · next h =>
    simp only [h, if_true, List.map_map]
    apply List.map_congr_left
    intro p _
    by_cases hp : p.1 = k
    · simp [hp]
    · simp [hp]
  · next h => simp [h]

theorem nodup_keys_insertDict {α : Type} {d : List (String × α)} {k : String}
    {v : α} (h : (d.map Prod.fst).Nodup) :
    ((insertDict d k v).map Prod.fst).Nodup := by
  rw [keys_insertDict]
  split
  · exact h
  · next hk =>
    have hk2 : k ∉ d.map Prod.fst := by
      rw [← dictGet?_eq_none_iff]
      cases hd : dictGet? d k
      · rfl
      · simp [hd] at hk
    simp [List.nodup_append, h, hk2]

theorem mem_insertDict {α : Type} {d : List (String × α)} {k : String} {v : α}
    {p : String × α} (h : p ∈ insertDict d k v) : p ∈ d ∨ p = (k, v) := by
  unfold insertDict at h
  split at h
  · rw [List.mem_map] at h
    obtain ⟨q, hq, hqe⟩ := h
    by_cases hqk : q.1 = k
    · simp [hqk] at hqe
      exact Or.inr hqe.symm
    · simp [hqk] at hqe
      exact Or.inl (hqe ▸ hq)
  · rw [List.mem_append] at h
    rcases h with h | h
    · exact Or.inl h
    · simp at h
      exact Or.inr h

theorem buildDict_key_eq {α : Type} (key : α → String) (xs : List α) :
    ∀ p ∈ buildDict key xs, key p.2 = p.1 := by
  unfold buildDict
  suffices h : ∀ d : List (String × α), (∀ p ∈ d, key p.2 = p.1) →
      ∀ p ∈ xs.foldl (fun d x => insertDict d (key x) x) d, key p.2 = p.1 from
    h [] (by simp)
  induction xs with
  | nil => intro d hd; simpa using hd
  | cons x xs ih =>
    intro d hd
    refine ih _ ?_
    intro p hp
    rcases mem_insertDict hp with h | h
    · exact hd p h
    · rw [h]

theorem buildDict_keys_nodup {α : Type} (key : α → String) (xs : List α) :
    ((buildDict key xs).map Prod.fst).Nodup := by
  unfold buildDict
  suffices h : ∀ d : List (String × α), (d.map Prod.fst).Nodup →
      ((xs.foldl (fun d x => insertDict d (key x) x) d).map Prod.fst).Nodup from
    h [] (by simp)
  induction xs with
  | nil => intro d hd; simpa using hd
  | cons x xs ih => intro d hd; exact ih _ (nodup_keys_insertDict hd)

/-! ### C1: missing requirement links -/

theorem missing_links_chunk_count (reqs : List (String × Requirement))
    (pid : String) (rl : List String) (sid r : String) :
    (rl.filterMap (fun req_id =>
      if (dictGet? reqs req_id).isSome then none
      else some (pid, req_id))).count (sid, r) =
    if sid = pid ∧ (dictGet? reqs r).isSome = false then rl.count r else 0 := by
  induction rl with
  | nil => simp only [List.filterMap_nil, List.count_nil]; split <;> simp
  | cons x xs ih =>
    rw [List.filterMap_cons]
    by_cases hx : (dictGet? reqs x).isSome
    · rw [if_pos hx, ih]
      by_cases hc : sid = pid ∧ (dictGet? reqs r).isSome = false
      · rw [if_pos hc, if_pos hc, List.count_cons]
        have hxr : ¬ x = r := by
          intro he
          rw [he, hc.2] at hx
          exact Bool.false_ne_true hx
        simp [hxr]
      · rw [if_neg hc, if_neg hc]
    · rw [if_neg hx, List.count_cons, ih]
      by_cases hc : sid = pid ∧ (dictGet? reqs r).isSome = false
      · rw [if_pos hc, if_pos hc, List.count_cons]
        have : ((pid, x) == (sid, r)) = (x == r) := by
          rcases hc with ⟨rfl, _⟩
          by_cases hxr : x = r <;> simp [hxr]
        rw [this]
      · rw [if_neg hc, if_neg hc]
        have : ¬ ((pid, x) == (sid, r)) = true := by
          intro he
          simp at he
          rcases he with ⟨h1, h2⟩
          apply hc
          refine ⟨h1.symm, ?_⟩
          rw [← h2]
          simpa using hx
        simp [this]

theorem missing_links_count_zero (reqs : List (String × Requirement))
    (d : List (String × Specification))
    (hid : ∀ p ∈ d, p.2.id = p.1) (sid : String)
    (hnot : sid ∉ d.map Prod.fst) (r : String) :
    (((d.map Prod.snd).map (fun spec =>
      spec.related_requirements.filterMap (fun req_id =>
        if (dictGet? reqs req_id).isSome then none
        else some (spec.id, req_id)))).flatten.count (sid, r)) = 0 := by
  induction d with
  | nil => simp
  | cons p rest ih =>
    rw [List.map_cons, List.map_cons, List.flatten_cons, List.count_append]
    have h1 : sid ≠ p.2.id := by
      rw [hid p (by simp)]
      intro he
      exact hnot (by simp [he])
    rw [missing_links_chunk_count]
    rw [if_neg (by intro hc; exact h1 hc.1)]
    rw [ih (fun q hq => hid q (List.mem_cons_of_mem _ hq))
      (fun hm => hnot (by simp [hm]))]

theorem missing_links_count_aux (reqs : List (String × Requirement))
    (d : List (String × Specification)) (hkeys : (d.map Prod.fst).Nodup)
    (hid : ∀ p ∈ d, p.2.id = p.1) (s : Specification) (r : String)
    (hs : (s.id, s) ∈ d) :
    (((d.map Prod.snd).map (fun spec =>
      spec.related_requirements.filterMap (fun req_id =>
        if (dictGet? reqs req_id).isSome then none
        else some (spec.id, req_id)))).flatten.count (s.id, r)) =
    if (dictGet? reqs r).isSome then 0 else s.related_requirements.count r := by
  induction d with
  | nil => cases hs
  | cons p rest ih =>
    rw [List.map_cons, List.map_cons, List.flatten_cons, List.count_append]
    rw [List.mem_cons] at hs
    rcases hs with hs | hs
    · have hp : p = (s.id, s) := hs.symm
      subst hp
      rw [missing_links_chunk_count]
      have hrest : s.id ∉ rest.map Prod.fst := by
        rw [List.map_cons, List.nodup_cons] at hkeys
        exact hkeys.1
      rw [missing_links_count_zero reqs rest
        (fun q hq => hid q (List.mem_cons_of_mem _ hq)) s.id hrest r]
      by_cases hr : (dictGet? reqs r).isSome
      · rw [if_neg (by intro hc; rw [hc.2] at hr; exact Bool.false_ne_true hr),
          if_pos hr]
      · rw [if_pos ⟨rfl, by simpa using hr⟩, if_neg hr]
        simp
    · have hsid : s.id ∈ rest.map Prod.fst := by
        rw [List.mem_map]
        exact ⟨(s.id, s), hs, rfl⟩
      have hp1 : p.1 ≠ s.id := by
        rw [List.map_cons, List.nodup_cons] at hkeys
        intro he
        exact hkeys.1 (he ▸ hsid)
      rw [missing_links_chunk_count,
        if_neg (by
          intro hc
          exact hp1 ((hid p (by simp)) ▸ hc.1.symm))]
      rw [ih (by rw [List.map_cons, List.nodup_cons] at hkeys; exact hkeys.2)
        (fun q hq => hid q (List.mem_cons_of_mem _ hq)) hs]
      simp

/-- C1: for a specification `s` of the specification index and a requirement
identifier `r`, the pair `(s.id, r)` occurs in
`get_missing_requirement_links` once per occurrence of `r` in
`s.related_requirements` when `r` is absent from the requirement index (in
particular exactly once when `s` lists `r` once), and never when `r` is
present; no pair whose requirement identifier is present in the index occurs
at all. -/
theorem missing_links_count (reqs : List Requirement) (specs : List Specification)
    (s : Specification) (r : String)
    (hs : dictGet? (CrossReferenceValidator.init reqs specs).specifications s.id =
      some s) :
    ((CrossReferenceValidator.init reqs specs).get_missing_requirement_links.count
        (s.id, r) =
      if (dictGet? (CrossReferenceValidator.init reqs specs).requirements r).isSome
      then 0 else s.related_requirements.count r) ∧
    (∀ p ∈ (CrossReferenceValidator.init reqs specs).get_missing_requirement_links,
      (dictGet? (CrossReferenceValidator.init reqs specs).requirements p.2).isSome
        = false) := by
  constructor
  · exact missing_links_count_aux (buildDict (fun rq => rq.id) reqs)
      (buildDict (fun sp => sp.id) specs)
      (buildDict_keys_nodup (fun sp => sp.id) specs)
      (buildDict_key_eq (fun sp => sp.id) specs) s r
      (dictGet?_mem
        (show dictGet? (buildDict (fun sp => sp.id) specs) s.id = some s from hs))
  · intro p hp
    unfold CrossReferenceValidator.get_missing_requirement_links at hp
    rw [List.mem_flatten] at hp
    obtain ⟨chunk, hchunk, hpc⟩ := hp
    rw [List.mem_map] at hchunk
    obtain ⟨spec, _, hce⟩ := hchunk
    rw [← hce, List.mem_filterMap] at hpc
    obtain ⟨req_id, _, hreq⟩ := hpc
    by_cases hq : (dictGet? (CrossReferenceValidator.init reqs specs).requirements
        req_id).isSome
    · rw [if_pos hq] at hreq
      cases hreq
    · rw [if_neg hq] at hreq
      cases hreq
      simpa using hq

/-- C1 counterexample: a specification listing the same missing requirement
identifier twice produces the pair twice, not exactly once. -/
theorem missing_links_duplicate_pair :
    (CrossReferenceValidator.init []
      [mkSpec "SPEC-001" ["REQ-999", "REQ-999"] "t.py" []]).get_missing_requirement_links.count
        ("SPEC-001", "REQ-999") = 2 ∧
    ¬ ((CrossReferenceValidator.init []
      [mkSpec "SPEC-001" ["REQ-999", "REQ-999"] "t.py" []]).get_missing_requirement_links.count
        ("SPEC-001", "REQ-999") = 1) := by
  decide

/-- C1 witness: with a single listing of the missing requirement the pair
occurs exactly once. -/
theorem missing_links_count_witness :
    (CrossReferenceValidator.init []
      [mkSpec "SPEC-001" ["REQ-999"] "t.py" []]).get_missing_requirement_links.count
        ("SPEC-001", "REQ-999") = 1 := by
  have h := (missing_links_count [] [mkSpec "SPEC-001" ["REQ-999"] "t.py" []]
    (mkSpec "SPEC-001" ["REQ-999"] "t.py" []) "REQ-999" (by decide)).1
  simpa [mkSpec, dictGet?] using h

/-! ### C6, C7, C9 -/

/-- C6: the coverage percentage is tested/(tested+untested)·100, is 100 when
there are no files at all, and analyzing zero declared unit-test files yields
100 with empty tested and untested sets. -/
theorem coverage_percentage_formula (r : TestCoverageReport)
    (fs : FileSystem) (pyParse : PyParseFn) (log content : String)
    (hlog : fs log = some content) :
    (r.tested_units.length + r.untested_units.length = 0 →
      r.get_coverage_percentage = 100) ∧
    (r.tested_units.length + r.untested_units.length ≠ 0 →
      r.get_coverage_percentage =
        (r.tested_units.length : ℚ) /
          ((r.tested_units.length + r.untested_units.length : ℕ) : ℚ) * 100) ∧
    (∃ r0, (TestCoverageAnalyzer.init []).analyze_test_list fs pyParse log =
        Except.ok r0 ∧
      r0.tested_units = [] ∧ r0.untested_units = [] ∧
      r0.get_coverage_percentage = 100) := by
  refine ⟨?_, ?_, ?_⟩
  · intro h
    unfold TestCoverageReport.get_coverage_percentage
    simp [h]
  · intro h
    unfold TestCoverageReport.get_coverage_percentage
    simp [h]
  · refine ⟨⟨[], [], [], []⟩, ?_, rfl, rfl, by
      unfold TestCoverageReport.get_coverage_percentage; simp⟩
    unfold TestCoverageAnalyzer.analyze_test_list
    rw [hlog]
    rfl

/-- C6 witness. -/
theorem coverage_percentage_formula_witness :
    ((⟨["a"], ["b"], [], []⟩ : TestCoverageReport).get_coverage_percentage =
      (1 : ℚ) / 2 * 100) ∧
    (∃ r0, (TestCoverageAnalyzer.init []).analyze_test_list exFsLogOnly exPyParse
        "log.txt" = Except.ok r0 ∧
      r0.tested_units = [] ∧ r0.untested_units = [] ∧
      r0.get_coverage_percentage = 100) := by
  have h := coverage_percentage_formula ⟨["a"], ["b"], [], []⟩ exFsLogOnly exPyParse
    "log.txt" "tests/test_missing.py::test_x PASSED" (by decide)
  exact ⟨by simpa using h.2.1 (by decide), h.2.2⟩

/-- C7: `analyze_test_list` fails exactly when the log file is missing, with
the `FileNotFoundError` message, and returns a full report otherwise. -/
theorem analyze_error_iff_log_missing (a : TestCoverageAnalyzer)
    (fs : FileSystem) (pyParse : PyParseFn) (test_list_file : String) :
    ((∃ e, a.analyze_test_list fs pyParse test_list_file = Except.error e) ↔
      fs test_list_file = none) ∧
    (fs test_list_file = none →
      a.analyze_test_list fs pyParse test_list_file =
        Except.error ("Test list file not found: " ++ test_list_file)) ∧
    (∀ c, fs test_list_file = some c →
      ∃ r, a.analyze_test_list fs pyParse test_list_file = Except.ok r) := by
  unfold TestCoverageAnalyzer.analyze_test_list
  cases hfs : fs test_list_file with
  | none => exact ⟨by simp, fun _ => rfl, fun c hc => by simp at hc⟩
  | some c =>
    refine ⟨by simp, fun h => by simp at h, fun c0 hc0 => ⟨_, rfl⟩⟩

/-- C7 witness. -/
theorem analyze_error_iff_log_missing_witness :
    (TestCoverageAnalyzer.init []).analyze_test_list exFsEmpty exPyParse "log.txt" =
      Except.error "Test list file not found: log.txt" := by
  have h := (analyze_error_iff_log_missing (TestCoverageAnalyzer.init []) exFsEmpty
    exPyParse "log.txt").2.1 rfl
  simpa using h

/-- C9: validating twice on the same unchanged validator yields results with
the same validity flag and the same error list in the same order (the
computation never mutates the validator's indices — in this embedding of the
source it is a pure function of them). -/
theorem validate_idempotent (reqs : List Requirement) (specs : List Specification) :
    ((CrossReferenceValidator.init reqs specs).validate_cross_references).is_valid =
      ((CrossReferenceValidator.init reqs specs).validate_cross_references).is_valid ∧
    ((CrossReferenceValidator.init reqs specs).validate_cross_references).errors =
      ((CrossReferenceValidator.init reqs specs).validate_cross_references).errors :=
  ⟨rfl, rfl⟩

/-! ### C8: the cycle walk terminates (fuel adequacy) -/

theorem foldl_congr_mem {α β : Type} {f g : α → β → α} {l : List β}
    (h : ∀ b ∈ l, ∀ a, f a b = g a b) : ∀ a, l.foldl f a = l.foldl g a := by
  induction l with
  | nil => intro a; rfl
  | cons x xs ih =>
    intro a
    rw [List.foldl_cons, List.foldl_cons, h x (by simp)]
    exact ih (fun b hb a2 => h b (by simp [hb]) a2) _

/-- One-step unfolding of the cycle walk. -/
theorem dfs_unfold (specs : List (String × Specification)) (fuel : Nat)
    (spec_id : String) (path : List String)
    (st : List String × List (List String)) :
    CrossReferenceValidator.dfs specs fuel spec_id path st =
      if fuel = 0 then st
      else if spec_id ∈ path then
        (st.1, st.2 ++ [path.drop (indexOfStr spec_id path) ++ [spec_id]])
      else if spec_id ∈ st.1 then st
      else
        match dictGet? specs spec_id with
        | some spec =>
            spec.dependencies.foldl
              (fun acc dep_id =>
                CrossReferenceValidator.dfs specs (fuel - 1) dep_id
                  (path ++ [spec_id]) acc)
              (st.1 ++ [spec_id], st.2)
        | none => (st.1 ++ [spec_id], st.2) := by
  rw [CrossReferenceValidator.dfs]
  simp only [dite_eq_ite]

theorem deps_subset_universe {specs : List (String × Specification)}
    {spec_id : String} {spec : Specification}
    (h : dictGet? specs spec_id = some spec) :
    ∀ d ∈ spec.dependencies, d ∈ specUniverse specs := by
  intro d hd
  have hm := dictGet?_mem h
  unfold specUniverse
  rw [List.mem_append]
  right
  rw [List.mem_flatten]
  exact ⟨spec.dependencies, by rw [List.mem_map]
                               exact ⟨(spec_id, spec), hm, rfl⟩, hd⟩

theorem keys_subset_universe {specs : List (String × Specification)} :
    ∀ k ∈ specs.map Prod.fst, k ∈ specUniverse specs := by
  intro k hk
  unfold specUniverse
  rw [List.mem_append]
  exact Or.inl hk

theorem nodup_subset_length_le {path univ : List String} (hnd : path.Nodup)
    (hsub : ∀ x ∈ path, x ∈ univ) : path.length ≤ univ.dedup.length := by
  have h1 : path ⊆ univ.dedup := fun x hx => List.mem_dedup.mpr (hsub x hx)
  exact (hnd.subperm h1).length_le

theorem dfs_succ (specs : List (String × Specification)) :
    ∀ f spec_id path st, path.Nodup →
      (∀ x ∈ path, x ∈ specUniverse specs) →
      spec_id ∈ specUniverse specs →
      (specUniverse specs).dedup.length + 1 - path.length ≤ f →
      CrossReferenceValidator.dfs specs (f + 1) spec_id path st =
        CrossReferenceValidator.dfs specs f spec_id path st := by
  intro f
  induction f with
  | zero =>
    intro spec_id path st hnd hsub hid hf
    exfalso
    have hle := nodup_subset_length_le hnd hsub
    omega
  | succ f ih =>
    intro spec_id path st hnd hsub hid hf
    rw [dfs_unfold specs (f + 1 + 1), dfs_unfold specs (f + 1)]
    rw [if_neg (show ¬(f + 1 + 1 = 0) by omega),
      if_neg (show ¬(f + 1 = 0) by omega)]
    simp only [Nat.add_sub_cancel]
    by_cases hp : spec_id ∈ path
    · rw [if_pos hp, if_pos hp]
    · rw [if_neg hp, if_neg hp]
      by_cases hv : spec_id ∈ st.1
      · rw [if_pos hv, if_pos hv]
      · rw [if_neg hv, if_neg hv]
        cases hlook : dictGet? specs spec_id with
        | none => rfl
        | some spec =>
          apply foldl_congr_mem
          intro d hd acc
          apply ih
          · rw [List.nodup_append]
            refine ⟨hnd, List.nodup_singleton _, ?_⟩
            intro x hx hx1
            rw [List.mem_singleton] at hx1
            exact hp (hx1 ▸ hx)
          · intro x hx
            rw [List.mem_append, List.mem_singleton] at hx
            rcases hx with hx | rfl
            · exact hsub x hx
            · exact hid
          · exact deps_subset_universe hlook d hd
          · rw [List.length_append, List.length_singleton]
            omega

theorem dfs_fuel_add (specs : List (String × Specification)) (n : Nat) :
    ∀ f spec_id path st, path.Nodup →
      (∀ x ∈ path, x ∈ specUniverse specs) →
      spec_id ∈ specUniverse specs →
      (specUniverse specs).dedup.length + 1 - path.length ≤ f →
      CrossReferenceValidator.dfs specs (f + n) spec_id path st =
        CrossReferenceValidator.dfs specs f spec_id path st := by
  induction n with
  | zero => intro f spec_id path st _ _ _ _; rfl
  | succ n ih =>
    intro f spec_id path st hnd hsub hid hf
    have h1 : f + (n + 1) = (f + n) + 1 := by omega
    rw [h1, dfs_succ specs (f + n) spec_id path st hnd hsub hid (by omega),
      ih f spec_id path st hnd hsub hid hf]

/-- C8: the cycle walk is fuel-stable — any fuel of at least `baseFuel`
computes the same result, so `_find_circular_dependencies` (and with it
`validate_cross_references`) is a well-defined total function even on cyclic
dependency graphs: recursion stops at nodes already on the current path,
fully visited nodes are skipped, and identifiers absent from the index
contribute no edges. -/
theorem dfs_fuel_stable (v : CrossReferenceValidator) (n : Nat) :
    v.findCircularFuel (v.baseFuel + n) = v._find_circular_dependencies := by
  unfold CrossReferenceValidator._find_circular_dependencies
    CrossReferenceValidator.findCircularFuel
  congr 1
  apply foldl_congr_mem
  intro k hk st
  by_cases hv : k ∈ st.1
  · rw [if_pos hv, if_pos hv]
  · rw [if_neg hv, if_neg hv]
    have hku : k ∈ specUniverse v.specifications := keys_subset_universe k hk
    have hdedup : (specUniverse v.specifications).dedup.length ≤
        (specUniverse v.specifications).length :=
      (List.dedup_sublist _).length_le
    have key : ∀ F, (specUniverse v.specifications).dedup.length + 1 ≤ F →
        CrossReferenceValidator.dfs v.specifications F k [] st =
          CrossReferenceValidator.dfs v.specifications
            ((specUniverse v.specifications).dedup.length + 1) k [] st := by
      intro F hF
      have h2 : F = ((specUniverse v.specifications).dedup.length + 1) +
          (F - ((specUniverse v.specifications).dedup.length + 1)) := by omega
      rw [h2]
      exact dfs_fuel_add v.specifications _ _ k [] st List.nodup_nil
        (by simp) hku (by simp)
    rw [key (v.baseFuel + n) (by unfold CrossReferenceValidator.baseFuel; omega),
      key v.baseFuel (by unfold CrossReferenceValidator.baseFuel; omega)]

/-! ### C2: a three-cycle yields exactly one cycle error -/

theorem dictGet?_nil {α : Type} (k : String) : dictGet? ([] : List (String × α)) k = none := rfl

theorem dictGet?_cons_ne {α : Type} {k0 k : String} (h : k0 ≠ k) (v : α)
    (rest : List (String × α)) :
    dictGet? ((k0, v) :: rest) k = dictGet? rest k := by
  simp only [dictGet?]
  rw [if_neg h]

theorem dictGet?_cons_eq {α : Type} (k : String) (v : α)
    (rest : List (String × α)) : dictGet? ((k, v) :: rest) k = some v := by
  simp [dictGet?]

theorem insertDict_not_mem {α : Type} {d : List (String × α)} {k : String}
    (v : α) (h : dictGet? d k = none) : insertDict d k v = d ++ [(k, v)] := by
  unfold insertDict
  rw [h]
  rfl

theorem mkSpec_id (i : String) (r : List String) (u : String)
    (d : List String) : (mkSpec i r u d).id = i := rfl

theorem mkSpec_related (i : String) (r : List String) (u : String)
    (d : List String) : (mkSpec i r u d).related_requirements = r := rfl

theorem mkSpec_deps (i : String) (r : List String) (u : String)
    (d : List String) : (mkSpec i r u d).dependencies = d := rfl

theorem cycleDict_eq (a b c : String) (hab : a ≠ b) (hac : a ≠ c)
    (hbc : b ≠ c) :
    buildDict (fun s => s.id)
      [mkSpec a [] "t.py" [b], mkSpec b [] "t.py" [c], mkSpec c [] "t.py" [a]] =
    [(a, mkSpec a [] "t.py" [b]), (b, mkSpec b [] "t.py" [c]),
      (c, mkSpec c [] "t.py" [a])] := by
  simp [buildDict, insertDict, dictGet?, mkSpec, hab, hac, hbc, hab.symm,
    hac.symm, hbc.symm]

theorem cycle_dfs4 (a b c : String) :
    CrossReferenceValidator.dfs
      [(a, mkSpec a [] "t.py" [b]), (b, mkSpec b [] "t.py" [c]),
        (c, mkSpec c [] "t.py" [a])]
      4 a [a, b, c] ([a, b, c], []) = ([a, b, c], [[a, b, c, a]]) := by
  rw [dfs_unfold]
  simp [indexOfStr]

theorem cycle_dfs5 (a b c : String) (hab : a ≠ b) (hac : a ≠ c) (hbc : b ≠ c) :
    CrossReferenceValidator.dfs
      [(a, mkSpec a [] "t.py" [b]), (b, mkSpec b [] "t.py" [c]),
        (c, mkSpec c [] "t.py" [a])]
      5 c [a, b] ([a, b], []) = ([a, b, c], [[a, b, c, a]]) := by
  rw [dfs_unfold]
  rw [if_neg (by omega)]
  rw [if_neg (by simp [hac.symm, hbc.symm]), if_neg (by simp [hac.symm, hbc.symm])]
  rw [dictGet?_cons_ne hac, dictGet?_cons_ne hbc, dictGet?_cons_eq]
  simp only [mkSpec, List.foldl_cons, List.foldl_nil, List.cons_append,
    List.nil_append]
  exact cycle_dfs4 a b c

theorem cycle_dfs6 (a b c : String) (hab : a ≠ b) (hac : a ≠ c) (hbc : b ≠ c) :
    CrossReferenceValidator.dfs
      [(a, mkSpec a [] "t.py" [b]), (b, mkSpec b [] "t.py" [c]),
        (c, mkSpec c [] "t.py" [a])]
      6 b [a] ([a], []) = ([a, b, c], [[a, b, c, a]]) := by
  rw [dfs_unfold]
  rw [if_neg (by omega)]
  rw [if_neg (by simp [hab.symm]), if_neg (by simp [hab.symm])]
  rw [dictGet?_cons_ne hab, dictGet?_cons_eq]
  simp only [mkSpec, List.foldl_cons, List.foldl_nil, List.cons_append,
    List.nil_append]
  exact cycle_dfs5 a b c hab hac hbc

theorem cycle_dfs7 (a b c : String) (hab : a ≠ b) (hac : a ≠ c) (hbc : b ≠ c) :
    CrossReferenceValidator.dfs
      [(a, mkSpec a [] "t.py" [b]), (b, mkSpec b [] "t.py" [c]),
        (c, mkSpec c [] "t.py" [a])]
      7 a [] ([], []) = ([a, b, c], [[a, b, c, a]]) := by
  rw [dfs_unfold]
  rw [if_neg (by omega)]
  rw [if_neg (by simp), if_neg (by simp)]
  rw [dictGet?_cons_eq]
  simp only [mkSpec, List.foldl_cons, List.foldl_nil, List.cons_append,
    List.nil_append]
  exact cycle_dfs6 a b c hab hac hbc

theorem cycle_find (a b c : String) (hab : a ≠ b) (hac : a ≠ c) (hbc : b ≠ c) :
    CrossReferenceValidator._find_circular_dependencies
      ⟨[], [(a, mkSpec a [] "t.py" [b]), (b, mkSpec b [] "t.py" [c]),
        (c, mkSpec c [] "t.py" [a])]⟩ = [[a, b, c, a]] := by
  unfold CrossReferenceValidator._find_circular_dependencies
    CrossReferenceValidator.baseFuel CrossReferenceValidator.findCircularFuel
    specUniverse
  simp [cycle_dfs7 a b c hab hac hbc, mkSpec_deps, hab, hac, hbc,
    hab.symm, hac.symm, hbc.symm]

/-- C2: for distinct identifiers with dependencies `a → b → c → a` (and no
other dependencies or requirement references), `validate_cross_references`
returns exactly one error: the circular-dependency message listing `a, b, c`
in encounter order and repeating the start node.  The traversal entered at
`b` or `c` adds no second error for the same cycle. -/
theorem cycle_single_error (a b c : String) (hab : a ≠ b) (hac : a ≠ c)
    (hbc : b ≠ c) :
    (CrossReferenceValidator.init []
        [mkSpec a [] "t.py" [b], mkSpec b [] "t.py" [c],
          mkSpec c [] "t.py" [a]]).validate_cross_references =
      ⟨false,
        ["Circular dependency detected: " ++
          String.intercalate " -> " [a, b, c, a]]⟩ := by
  have hinit : CrossReferenceValidator.init []
      [mkSpec a [] "t.py" [b], mkSpec b [] "t.py" [c], mkSpec c [] "t.py" [a]] =
      ⟨[], [(a, mkSpec a [] "t.py" [b]), (b, mkSpec b [] "t.py" [c]),
        (c, mkSpec c [] "t.py" [a])]⟩ := by
    unfold CrossReferenceValidator.init
    rw [cycleDict_eq a b c hab hac hbc]
    rfl
  rw [hinit]
  unfold CrossReferenceValidator.validate_cross_references
  simp [cycle_find a b c hab hac hbc, mkSpec_related, mkSpec_deps, mkSpec_id,
    dictGet?, hab, hac, hbc, hab.symm, hac.symm, hbc.symm]

/-- C2 witness at concrete identifiers. -/
theorem cycle_single_error_witness :
    (CrossReferenceValidator.init []
        [mkSpec "SPEC-A" [] "t.py" ["SPEC-B"],
          mkSpec "SPEC-B" [] "t.py" ["SPEC-C"],
          mkSpec "SPEC-C" [] "t.py" ["SPEC-A"]]).validate_cross_references =
      ⟨false,
        ["Circular dependency detected: SPEC-A -> SPEC-B -> SPEC-C -> SPEC-A"]⟩ := by
  rw [cycle_single_error "SPEC-A" "SPEC-B" "SPEC-C" (by decide) (by decide)
    (by decide)]
  rfl

/-! ### Loop invariants of `analyze_test_list` (for C5, C10) -/

theorem isSome_mem_keys {α : Type} {d : List (String × α)} {k : String}
    (h : (dictGet? d k).isSome) : k ∈ d.map Prod.fst := by
  by_contra hk
  rw [← dictGet?_eq_none_iff] at hk
  rw [hk] at h
  simp at h

theorem mem_keys_insertDict {α : Type} {d : List (String × α)} {k q : String}
    {v : α} :
    q ∈ (insertDict d k v).map Prod.fst ↔ q ∈ d.map Prod.fst ∨ q = k := by
  rw [keys_insertDict]
  split
  · next h =>
    constructor
    · exact fun hq => Or.inl hq
    · rintro (hq | rfl)
      · exact hq
      · exact isSome_mem_keys h
  · simp

theorem processPath_tested_mem (fs : FileSystem) (pyParse : PyParseFn)
    (executed : List String) (st : AnalyzeState) (p q : String) :
    q ∈ (TestCoverageAnalyzer.processPath fs pyParse executed st p).tested ↔
      q ∈ st.tested ∨
        (q = p ∧ TestCoverageAnalyzer.pathTested fs pyParse executed p = true) := by
  simp only [TestCoverageAnalyzer.processPath, TestCoverageAnalyzer.pathTested]
  by_cases h1 : TestCoverageAnalyzer._get_test_functions fs pyParse p = []
  · simp [h1]
  · by_cases h2 : (TestCoverageAnalyzer._get_test_functions fs pyParse p).filter
        (fun f => TestCoverageAnalyzer._is_function_covered p f executed) = []
    · simp [h1, h2]
    · simp [h1, h2, mem_addSet]

theorem processPath_untested_mem (fs : FileSystem) (pyParse : PyParseFn)
    (executed : List String) (st : AnalyzeState) (p q : String) :
    q ∈ (TestCoverageAnalyzer.processPath fs pyParse executed st p).untested ↔
      q ∈ st.untested ∨
        (q = p ∧ TestCoverageAnalyzer.pathTested fs pyParse executed p = false) := by
  simp only [TestCoverageAnalyzer.processPath, TestCoverageAnalyzer.pathTested]
  by_cases h1 : TestCoverageAnalyzer._get_test_functions fs pyParse p = []
  · simp [h1, mem_addSet]
  · by_cases h2 : (TestCoverageAnalyzer._get_test_functions fs pyParse p).filter
        (fun f => TestCoverageAnalyzer._is_function_covered p f executed) = []
    · simp [h1, h2, mem_addSet]
    · simp [h1, h2]

theorem mem_keys_iff_exists {α : Type} {d : List (String × α)} {q : String} :
    q ∈ d.map Prod.fst ↔ ∃ x, (q, x) ∈ d := by
  rw [List.mem_map]
  constructor
  · rintro ⟨⟨k, v⟩, hm, rfl⟩
    exact ⟨v, hm⟩
  · rintro ⟨x, hm⟩
    exact ⟨(q, x), hm, rfl⟩

theorem exists_mem_insertDict {α : Type} {d : List (String × α)} {k q : String}
    {v : α} :
    (∃ x, (q, x) ∈ insertDict d k v) ↔ (∃ x, (q, x) ∈ d) ∨ q = k := by
  rw [← mem_keys_iff_exists, ← mem_keys_iff_exists, mem_keys_insertDict]

theorem processPath_testedfns_mem (fs : FileSystem) (pyParse : PyParseFn)
    (executed : List String) (st : AnalyzeState) (p q : String) :
    q ∈ (TestCoverageAnalyzer.processPath fs pyParse executed st p).tested_functions.map
        Prod.fst ↔
      q ∈ st.tested_functions.map Prod.fst ∨
        (q = p ∧ TestCoverageAnalyzer.pathTested fs pyParse executed p = true) := by
  simp only [TestCoverageAnalyzer.processPath, TestCoverageAnalyzer.pathTested]
  by_cases h1 : TestCoverageAnalyzer._get_test_functions fs pyParse p = []
  · simp [h1]
  · by_cases h2 : (TestCoverageAnalyzer._get_test_functions fs pyParse p).filter
        (fun f => TestCoverageAnalyzer._is_function_covered p f executed) = []
    · simp [h1, h2]
    · simp [h1, h2, exists_mem_insertDict]

theorem processPath_tested_nodup (fs : FileSystem) (pyParse : PyParseFn)
    (executed : List String) (st : AnalyzeState) (p : String)
    (h : st.tested.Nodup) :
    (TestCoverageAnalyzer.processPath fs pyParse executed st p).tested.Nodup := by
  simp only [TestCoverageAnalyzer.processPath]
  by_cases h1 : TestCoverageAnalyzer._get_test_functions fs pyParse p = []
  · simp [h1, h]
  · by_cases h2 : (TestCoverageAnalyzer._get_test_functions fs pyParse p).filter
        (fun f => TestCoverageAnalyzer._is_function_covered p f executed) = []
    · simp [h1, h2, h]
    · simp [h1, h2, nodup_addSet h]

theorem processPath_untested_nodup (fs : FileSystem) (pyParse : PyParseFn)
    (executed : List String) (st : AnalyzeState) (p : String)
    (h : st.untested.Nodup) :
    (TestCoverageAnalyzer.processPath fs pyParse executed st p).untested.Nodup := by
  simp only [TestCoverageAnalyzer.processPath]
  by_cases h1 : TestCoverageAnalyzer._get_test_functions fs pyParse p = []
  · simp [h1, nodup_addSet h]
  · by_cases h2 : (TestCoverageAnalyzer._get_test_functions fs pyParse p).filter
        (fun f => TestCoverageAnalyzer._is_function_covered p f executed) = []
    · simp [h1, h2, nodup_addSet h]
    · simp [h1, h2, h]

theorem analyzeFold_tested_mem (fs : FileSystem) (pyParse : PyParseFn)
    (executed : List String) (paths : List String) :
    ∀ (st : AnalyzeState) (q : String),
      q ∈ (paths.foldl (TestCoverageAnalyzer.processPath fs pyParse executed)
        st).tested ↔
      q ∈ st.tested ∨ (q ∈ paths ∧
        TestCoverageAnalyzer.pathTested fs pyParse executed q = true) := by
  induction paths with
  | nil => simp
  | cons x xs ih =>
    intro st q
    rw [List.foldl_cons, ih, processPath_tested_mem, List.mem_cons]
    constructor
    · rintro ((h | ⟨rfl, hc⟩) | ⟨hm, hc⟩)
      · exact Or.inl h
      · exact Or.inr ⟨Or.inl rfl, hc⟩
      · exact Or.inr ⟨Or.inr hm, hc⟩
    · rintro (h | ⟨hm | hm, hc⟩)
      · exact Or.inl (Or.inl h)
      · exact Or.inl (Or.inr ⟨hm, hm ▸ hc⟩)
      · exact Or.inr ⟨hm, hc⟩

theorem analyzeFold_untested_mem (fs : FileSystem) (pyParse : PyParseFn)
    (executed : List String) (paths : List String) :
    ∀ (st : AnalyzeState) (q : String),
      q ∈ (paths.foldl (TestCoverageAnalyzer.processPath fs pyParse executed)
        st).untested ↔
      q ∈ st.untested ∨ (q ∈ paths ∧
        TestCoverageAnalyzer.pathTested fs pyParse executed q = false) := by
  induction paths with
  | nil => simp
  | cons x xs ih =>
    intro st q
    rw [List.foldl_cons, ih, processPath_untested_mem, List.mem_cons]
    constructor
    · rintro ((h | ⟨rfl, hc⟩) | ⟨hm, hc⟩)
      · exact Or.inl h
      · exact Or.inr ⟨Or.inl rfl, hc⟩
      · exact Or.inr ⟨Or.inr hm, hc⟩
    · rintro (h | ⟨hm | hm, hc⟩)
      · exact Or.inl (Or.inl h)
      · exact Or.inl (Or.inr ⟨hm, hm ▸ hc⟩)
      · exact Or.inr ⟨hm, hc⟩

theorem analyzeFold_testedfns_mem (fs : FileSystem) (pyParse : PyParseFn)
    (executed : List String) (paths : List String) :
    ∀ (st : AnalyzeState) (q : String),
      q ∈ (paths.foldl (TestCoverageAnalyzer.processPath fs pyParse executed)
        st).tested_functions.map Prod.fst ↔
      q ∈ st.tested_functions.map Prod.fst ∨ (q ∈ paths ∧
        TestCoverageAnalyzer.pathTested fs pyParse executed q = true) := by
  induction paths with
  | nil => simp
  | cons x xs ih =>
    intro st q
    rw [List.foldl_cons, ih, processPath_testedfns_mem, List.mem_cons]
    constructor
    · rintro ((h | ⟨rfl, hc⟩) | ⟨hm, hc⟩)
      · exact Or.inl h
      · exact Or.inr ⟨Or.inl rfl, hc⟩
      · exact Or.inr ⟨Or.inr hm, hc⟩
    · rintro (h | ⟨hm | hm, hc⟩)
      · exact Or.inl (Or.inl h)
      · exact Or.inl (Or.inr ⟨hm, hm ▸ hc⟩)
      · exact Or.inr ⟨hm, hc⟩

theorem analyzeFold_tested_nodup (fs : FileSystem) (pyParse : PyParseFn)
    (executed : List String) (paths : List String) :
    ∀ st : AnalyzeState, st.tested.Nodup →
      (paths.foldl (TestCoverageAnalyzer.processPath fs pyParse executed)
        st).tested.Nodup := by
  induction paths with
  | nil => exact fun st h => h
  | cons x xs ih =>
    intro st h
    rw [List.foldl_cons]
    exact ih _ (processPath_tested_nodup fs pyParse executed st x h)

theorem analyzeFold_untested_nodup (fs : FileSystem) (pyParse : PyParseFn)
    (executed : List String) (paths : List String) :
    ∀ st : AnalyzeState, st.untested.Nodup →
      (paths.foldl (TestCoverageAnalyzer.processPath fs pyParse executed)
        st).untested.Nodup := by
  induction paths with
  | nil => exact fun st h => h
  | cons x xs ih =>
    intro st h
    rw [List.foldl_cons]
    exact ih _ (processPath_untested_nodup fs pyParse executed st x h)

/-- C5: a declared unit-test file that does not exist on the file system is
classified untested whatever the log says: test-function extraction yields
the empty set, the path lands in the untested set, not in the tested set,
and gets no tested-functions entry. -/
theorem missing_file_untested (specs : List Specification) (fs : FileSystem)
    (pyParse : PyParseFn) (log content p : String)
    (hlog : fs log = some content) (hp : fs p = none)
    (hdecl : p ∈ specs.map (fun s => s.unit_test)) :
    TestCoverageAnalyzer._get_test_functions fs pyParse p = [] ∧
    ∃ r, (TestCoverageAnalyzer.init specs).analyze_test_list fs pyParse log =
        Except.ok r ∧
      p ∈ r.untested_units ∧ p ∉ r.tested_units ∧
      p ∉ r.tested_functions.map Prod.fst := by
  have hfns : TestCoverageAnalyzer._get_test_functions fs pyParse p = [] := by
    unfold TestCoverageAnalyzer._get_test_functions
    rw [hp]
  have hC : ∀ executed,
      TestCoverageAnalyzer.pathTested fs pyParse executed p = false := by
    intro executed
    unfold TestCoverageAnalyzer.pathTested
    rw [hfns]
    rfl
  refine ⟨hfns, ?_⟩
  simp only [TestCoverageAnalyzer.analyze_test_list, hlog]
  refine ⟨_, rfl, ?_, ?_, ?_⟩
  · show p ∈ ((TestCoverageAnalyzer.init specs).unit_test_paths.foldl
      (TestCoverageAnalyzer.processPath fs pyParse
        (TestCoverageAnalyzer._parse_test_list content)) ⟨[], [], [], []⟩).untested
    rw [analyzeFold_untested_mem]
    refine Or.inr ⟨?_, hC _⟩
    show p ∈ dedupFirst (specs.map (fun s => s.unit_test))
    exact mem_dedupFirst.mpr hdecl
  · show p ∉ ((TestCoverageAnalyzer.init specs).unit_test_paths.foldl
      (TestCoverageAnalyzer.processPath fs pyParse
        (TestCoverageAnalyzer._parse_test_list content)) ⟨[], [], [], []⟩).tested
    rw [analyzeFold_tested_mem]
    rintro (h | ⟨_, hc⟩)
    · simp at h
    · rw [hC _] at hc
      cases hc
  · show p ∉ ((TestCoverageAnalyzer.init specs).unit_test_paths.foldl
      (TestCoverageAnalyzer.processPath fs pyParse
        (TestCoverageAnalyzer._parse_test_list content))
        ⟨[], [], [], []⟩).tested_functions.map Prod.fst
    rw [analyzeFold_testedfns_mem]
    rintro (h | ⟨_, hc⟩)
    · simp at h
    · rw [hC _] at hc
      cases hc

/-- C5 witness. -/
theorem missing_file_untested_witness :
    TestCoverageAnalyzer._get_test_functions exFsLogOnly exPyParse
      "tests/test_missing.py" = [] ∧
    ∃ r, (TestCoverageAnalyzer.init
        [mkSpec "SPEC-001" [] "tests/test_missing.py" []]).analyze_test_list
        exFsLogOnly exPyParse "log.txt" = Except.ok r ∧
      "tests/test_missing.py" ∈ r.untested_units ∧
      "tests/test_missing.py" ∉ r.tested_units ∧
      "tests/test_missing.py" ∉ r.tested_functions.map Prod.fst :=
  missing_file_untested [mkSpec "SPEC-001" [] "tests/test_missing.py" []]
    exFsLogOnly exPyParse "log.txt" "tests/test_missing.py::test_x PASSED"
    "tests/test_missing.py" (by decide) (by decide) (by simp [mkSpec])

/-- C10: every report of `analyze_test_list` partitions the declared
unit-test paths: tested and untested sets are disjoint duplicate-free lists
whose union is exactly the set of unit-test paths declared by the supplied
specifications, and every key of the tested-functions mapping is a tested
unit. -/
theorem analyze_report_partition (specs : List Specification) (fs : FileSystem)
    (pyParse : PyParseFn) (log : String) (r : TestCoverageReport)
    (h : (TestCoverageAnalyzer.init specs).analyze_test_list fs pyParse log =
      Except.ok r) :
    (∀ p, ¬(p ∈ r.tested_units ∧ p ∈ r.untested_units)) ∧
    (∀ p, (p ∈ r.tested_units ∨ p ∈ r.untested_units) ↔
      p ∈ specs.map (fun s => s.unit_test)) ∧
    r.tested_units.Nodup ∧ r.untested_units.Nodup ∧
    (∀ p ∈ r.tested_functions.map Prod.fst, p ∈ r.tested_units) := by
  cases hfs : fs log with
  | none =>
    simp only [TestCoverageAnalyzer.analyze_test_list, hfs] at h
    cases h
  | some content =>
    simp only [TestCoverageAnalyzer.analyze_test_list, hfs] at h
    cases h
    refine ⟨?_, ?_, ?_, ?_, ?_⟩
    · intro p ⟨ht, hu⟩
      rw [show (⟨_, _, _, _⟩ : TestCoverageReport).tested_units =
        ((TestCoverageAnalyzer.init specs).unit_test_paths.foldl
          (TestCoverageAnalyzer.processPath fs pyParse
            (TestCoverageAnalyzer._parse_test_list content))
          ⟨[], [], [], []⟩).tested from rfl, analyzeFold_tested_mem] at ht
      rw [show (⟨_, _, _, _⟩ : TestCoverageReport).untested_units =
        ((TestCoverageAnalyzer.init specs).unit_test_paths.foldl
          (TestCoverageAnalyzer.processPath fs pyParse
            (TestCoverageAnalyzer._parse_test_list content))
          ⟨[], [], [], []⟩).untested from rfl, analyzeFold_untested_mem] at hu
      rcases ht with ht | ⟨_, hct⟩
      · simp at ht
      · rcases hu with hu | ⟨_, hcu⟩
        · simp at hu
        · rw [hct] at hcu
          cases hcu
    · intro p
      rw [show (⟨_, _, _, _⟩ : TestCoverageReport).tested_units =
        ((TestCoverageAnalyzer.init specs).unit_test_paths.foldl
          (TestCoverageAnalyzer.processPath fs pyParse
            (TestCoverageAnalyzer._parse_test_list content))
          ⟨[], [], [], []⟩).tested from rfl, analyzeFold_tested_mem]
      rw [show (⟨_, _, _, _⟩ : TestCoverageReport).untested_units =
        ((TestCoverageAnalyzer.init specs).unit_test_paths.foldl
          (TestCoverageAnalyzer.processPath fs pyParse
            (TestCoverageAnalyzer._parse_test_list content))
          ⟨[], [], [], []⟩).untested from rfl, analyzeFold_untested_mem]
      have hpaths : p ∈ (TestCoverageAnalyzer.init specs).unit_test_paths ↔
          p ∈ specs.map (fun s => s.unit_test) := mem_dedupFirst
      constructor
      · rintro ((ht | ⟨hm, _⟩) | (hu | ⟨hm, _⟩))
        · simp at ht
        · exact hpaths.mp hm
        · simp at hu
        · exact hpaths.mp hm
      · intro hm
        by_cases hc : TestCoverageAnalyzer.pathTested fs pyParse
            (TestCoverageAnalyzer._parse_test_list content) p = true
        · exact Or.inl (Or.inr ⟨hpaths.mpr hm, hc⟩)
        · exact Or.inr (Or.inr ⟨hpaths.mpr hm, by
            cases hcv : TestCoverageAnalyzer.pathTested fs pyParse
              (TestCoverageAnalyzer._parse_test_list content) p
            · rfl
            · exact absurd hcv hc⟩)
    · exact analyzeFold_tested_nodup fs pyParse
        (TestCoverageAnalyzer._parse_test_list content)
        (TestCoverageAnalyzer.init specs).unit_test_paths ⟨[], [], [], []⟩
        List.nodup_nil
    · exact analyzeFold_untested_nodup fs pyParse
        (TestCoverageAnalyzer._parse_test_list content)
        (TestCoverageAnalyzer.init specs).unit_test_paths ⟨[], [], [], []⟩
        List.nodup_nil
    · intro p hp
      rw [show (⟨_, _, _, _⟩ : TestCoverageReport).tested_functions =
        ((TestCoverageAnalyzer.init specs).unit_test_paths.foldl
          (TestCoverageAnalyzer.processPath fs pyParse
            (TestCoverageAnalyzer._parse_test_list content))
          ⟨[], [], [], []⟩).tested_functions from rfl,
        analyzeFold_testedfns_mem] at hp
      rw [show (⟨_, _, _, _⟩ : TestCoverageReport).tested_units =
        ((TestCoverageAnalyzer.init specs).unit_test_paths.foldl
          (TestCoverageAnalyzer.processPath fs pyParse
            (TestCoverageAnalyzer._parse_test_list content))
          ⟨[], [], [], []⟩).tested from rfl, analyzeFold_tested_mem]
      rcases hp with hp | hp
      · simp at hp
      · exact Or.inr hp

/-- C10 witness. -/
theorem analyze_report_partition_witness :
    (∀ p, ¬(p ∈ (⟨["tests/test_example.py"], [],
        [("tests/test_example.py", ["test_a"])],
        [("tests/test_example.py", ["test_b"])]⟩ :
          TestCoverageReport).tested_units ∧
      p ∈ (⟨["tests/test_example.py"], [],
        [("tests/test_example.py", ["test_a"])],
        [("tests/test_example.py", ["test_b"])]⟩ :
          TestCoverageReport).untested_units)) ∧
    (∀ p, (p ∈ (⟨["tests/test_example.py"], [],
        [("tests/test_example.py", ["test_a"])],
        [("tests/test_example.py", ["test_b"])]⟩ :
          TestCoverageReport).tested_units ∨
      p ∈ (⟨["tests/test_example.py"], [],
        [("tests/test_example.py", ["test_a"])],
        [("tests/test_example.py", ["test_b"])]⟩ :
          TestCoverageReport).untested_units) ↔
      p ∈ [mkSpec "SPEC-001" [] "tests/test_example.py" []].map
        (fun s => s.unit_test)) ∧
    (⟨["tests/test_example.py"], [], [("tests/test_example.py", ["test_a"])],
      [("tests/test_example.py", ["test_b"])]⟩ :
        TestCoverageReport).tested_units.Nodup ∧
    (⟨["tests/test_example.py"], [], [("tests/test_example.py", ["test_a"])],
      [("tests/test_example.py", ["test_b"])]⟩ :
        TestCoverageReport).untested_units.Nodup ∧
    (∀ p ∈ (⟨["tests/test_example.py"], [],
        [("tests/test_example.py", ["test_a"])],
        [("tests/test_example.py", ["test_b"])]⟩ :
          TestCoverageReport).tested_functions.map Prod.fst,
      p ∈ (⟨["tests/test_example.py"], [],
        [("tests/test_example.py", ["test_a"])],
        [("tests/test_example.py", ["test_b"])]⟩ :
          TestCoverageReport).tested_units) :=
  analyze_report_partition [mkSpec "SPEC-001" [] "tests/test_example.py" []]
    exFsGood exPyParse "log.txt"
    ⟨["tests/test_example.py"], [], [("tests/test_example.py", ["test_a"])],
      [("tests/test_example.py", ["test_b"])]⟩ (by rfl)

/-! ### C3: the pytest-format coverage scenario -/

/-- C3 counterexample: for the declared unit-test file `foo.py` (name not
starting with `test`) containing exactly `test_a`, `test_b`, and the log line
`foo.py::test_a PASSED`, the log parser's `::` branch keeps only `foo.py`, no
function matches, and the file is classified untested with coverage 0 — not
tested with coverage 100 as the claim states. -/
theorem coverage_scenario_fails_for_plain_path :
    (TestCoverageAnalyzer.init
        [mkSpec "SPEC-001" [] "foo.py" []]).analyze_test_list
        exFsBad exPyParse "log.txt" =
      Except.ok ⟨[], ["foo.py"], [], [("foo.py", ["test_a", "test_b"])]⟩ ∧
    (⟨[], ["foo.py"], [], [("foo.py", ["test_a", "test_b"])]⟩ :
      TestCoverageReport).get_coverage_percentage = 0 ∧
    ¬ (⟨[], ["foo.py"], [], [("foo.py", ["test_a", "test_b"])]⟩ :
      TestCoverageReport).get_coverage_percentage = 100 := by
  refine ⟨by rfl, by norm_num [TestCoverageReport.get_coverage_percentage],
    by norm_num [TestCoverageReport.get_coverage_percentage]⟩

/-- C3 (amended): the claimed scenario holds when the declared path is kept
whole by the log parser (it starts with `test`, here `tests/test_example.py`,
and does not itself contain the other function's name): the file is
classified tested, `test_a` is its tested function, `test_b` its untested
function, and the coverage percentage is 100. -/
theorem coverage_scenario_test_prefix :
    (TestCoverageAnalyzer.init
        [mkSpec "SPEC-001" [] "tests/test_example.py" []]).analyze_test_list
        exFsGood exPyParse "log.txt" =
      Except.ok ⟨["tests/test_example.py"], [],
        [("tests/test_example.py", ["test_a"])],
        [("tests/test_example.py", ["test_b"])]⟩ ∧
    (⟨["tests/test_example.py"], [], [("tests/test_example.py", ["test_a"])],
      [("tests/test_example.py", ["test_b"])]⟩ :
        TestCoverageReport).get_coverage_percentage = 100 := by
  refine ⟨by rfl, by norm_num [TestCoverageReport.get_coverage_percentage]⟩
